import Mathlib

/-!
Verification of the granular-synthesis grain voice manager
(`src/js/audio/OptimizedGrainVoiceManager.js`) and the grain trigger logic.

The JavaScript source is shallowly embedded: audio-clock times and gain
values become rationals (or reals where the source uses transcendental
functions), the mutable manager object becomes an explicit state record,
and each method becomes a state-transforming function translated line by
line from the source.
-/

namespace GVM

/-- Constant `CLEANUP_INTERVAL = 60` from the source. -/
def CLEANUP_INTERVAL : Nat := 60

/-- Constant `CLEANUP_DELAY = 0.1` from the source. -/
def CLEANUP_DELAY : ℚ := 1/10

/-- Constant `DEFAULT_FILTER_FREQUENCY = 350` from the source. -/
def DEFAULT_FILTER_FREQUENCY : ℚ := 350

/-- One grain object, as built in `createOptimizedGrain`:
`{ source, nodes, endTime, isActive }`.  The source handle is tracked by
a `sourceStopped` flag; the pooled node triple by an id. -/
structure Grain where
  endTime : ℚ
  isActive : Bool
  sourceStopped : Bool
  nodesId : Nat
  deriving DecidableEq, Repr

/-- Manager state: `activeVoices` (a JS `Set` of grain references,
modelled as a duplicate-free list of indices into `grains`, in insertion
order, which is the JS `Set` iteration order), the `cleanupQueue` of
`{ grain, time }` entries, the periodic-cleanup counter `lastCleanup`
and the master gain value. -/
structure MState where
  maxVoices : Nat
  grains : List Grain
  activeVoices : List Nat
  cleanupQueue : List (Nat × ℚ)
  lastCleanup : Nat
  masterGainValue : ℚ
  deriving DecidableEq, Repr

/-- Constructor state: empty active set, empty queue, counter 0,
`masterGain.gain.value = 1.0`. -/
def initState (maxVoices : Nat) : MState :=
  { maxVoices := maxVoices
    grains := []
    activeVoices := []
    cleanupQueue := []
    lastCleanup := 0
    masterGainValue := 1 }

/-- `cleanupGrain(grain)`: guarded by `isActive`; deactivates the grain,
deletes it from `activeVoices`, stops the source and returns the nodes
to the pool.  The queue is untouched (the source never removes queue
entries here). -/
def cleanupGrain (s : MState) (gid : Nat) : MState :=
  match s.grains.get? gid with
  | none => s
  | some g =>
    if g.isActive then
      { s with
          grains := s.grains.set gid { g with isActive := false, sourceStopped := true }
          activeVoices := s.activeVoices.erase gid }
    else s

/-- The scan in `forceCleanupOldest`: walk the active set in iteration
order keeping the grain with the strictly smallest `endTime` seen so far
(`oldestTime` starts at `Infinity`, modelled by the `none` accumulator). -/
def findOldest (s : MState) : Option (Nat × ℚ) :=
  s.activeVoices.foldl
    (fun acc gid =>
      match s.grains.get? gid with
      | none => acc
      | some g =>
        match acc with
        | none => some (gid, g.endTime)
        | some (b, t) => if g.endTime < t then some (gid, g.endTime) else some (b, t))
    none

/-- `forceCleanupOldest()`: find the active grain with the smallest
`endTime` and clean it up. -/
def forceCleanupOldest (s : MState) : MState :=
  match findOldest s with
  | none => s
  | some (gid, _) => cleanupGrain s gid

/-- `scheduleCleanup(grain, cleanupTime)`: push `{ grain, time }`. -/
def scheduleCleanup (s : MState) (gid : Nat) (time : ℚ) : MState :=
  { s with cleanupQueue := s.cleanupQueue ++ [(gid, time)] }

/-- `performCleanup()`: splice every queue entry with `time <= now` out
of the queue (iterating from the back, so `toCleanup` collects the due
grains in reverse queue order), then run `cleanupGrain` on each. -/
def performCleanup (s : MState) (now : ℚ) : MState :=
  let due := (s.cleanupQueue.filter (fun e => e.2 ≤ now)).reverse
  let s1 := { s with cleanupQueue := s.cleanupQueue.filter (fun e => ¬ e.2 ≤ now) }
  due.foldl (fun st e => cleanupGrain st e.1) s1

/-- First phase of `createGrain`: pre-increment `lastCleanup` and run the
periodic `performCleanup` on every `CLEANUP_INTERVAL`-th call. -/
def createGrainPhase1 (s : MState) (now : ℚ) : MState :=
  let s0 := { s with lastCleanup := s.lastCleanup + 1 }
  if s0.lastCleanup % CLEANUP_INTERVAL = 0 then performCleanup s0 now else s0

/-- Second phase of `createGrain`: `forceCleanupOldest` when at capacity
(`activeVoices.size >= maxVoices`). -/
def createGrainPhase2 (s : MState) : MState :=
  if s.activeVoices.length ≥ s.maxVoices then forceCleanupOldest s else s

/-- Successful `createOptimizedGrain` plus registration: a fresh grain
object with `endTime = startTime + duration` and `isActive = true` is
added to the active set and a cleanup is scheduled at
`startTime + duration + CLEANUP_DELAY`. -/
def admitGrain (s : MState) (startTime duration : ℚ) : MState :=
  let gid := s.grains.length
  let grain : Grain := { endTime := startTime + duration, isActive := true,
                         sourceStopped := false, nodesId := gid }
  let s3 := { s with grains := s.grains ++ [grain],
                     activeVoices := s.activeVoices ++ [gid] }
  scheduleCleanup s3 gid (startTime + duration + CLEANUP_DELAY)

/-- `createGrain(buffer, params, startTime, duration, position)`.
The `ok` flag models whether the inner try/catch of
`createOptimizedGrain` succeeded (on failure the source returns `null`
and nothing is registered). -/
def createGrain (s : MState) (now startTime duration : ℚ) (ok : Bool) : MState :=
  let s2 := createGrainPhase2 (createGrainPhase1 s now)
  if ok then admitGrain s2 startTime duration else s2

/-- `stopAll()`: clean up every active grain, then clear the queue. -/
def stopAll (s : MState) : MState :=
  let s1 := s.activeVoices.foldl (fun st gid => cleanupGrain st gid) s
  { s1 with cleanupQueue := [] }

/-- `getActiveVoiceCount()` is the size of the active set. -/
def getActiveVoiceCount (s : MState) : Nat :=
  s.activeVoices.length

/-- `setMasterVolume(volume)`: `masterGain.gain.value = Math.max(0, Math.min(1, volume))`. -/
def setMasterVolume (s : MState) (volume : ℚ) : MState :=
  { s with masterGainValue := max 0 (min 1 volume) }

/-- Externally driven events between `createGrain` calls: a natural
`source.onended` callback for a grain (which runs `cleanupGrain`), an
explicit drain, or `stopAll`. -/
inductive Event where
  | create (now startTime duration : ℚ) (ok : Bool)
  | ended (gid : Nat)
  | drain (now : ℚ)
  | stop
  deriving DecidableEq, Repr

/-- One scheduler-thread step. -/
def step (s : MState) : Event → MState
  | .create now st d ok => createGrain s now st d ok
  | .ended gid => cleanupGrain s gid
  | .drain now => performCleanup s now
  | .stop => stopAll s

/-- Run a sequence of events from the freshly constructed manager. -/
def run (maxVoices : Nat) (evs : List Event) : MState :=
  evs.foldl step (initState maxVoices)

/-- Accumulator step of the `forceCleanupOldest` scan, named so the fold
can be reasoned about; `findOldest` is this folded over the active set. -/
def oldestStep (s : MState) (acc : Option (Nat × ℚ)) (gid : Nat) : Option (Nat × ℚ) :=
  match s.grains.get? gid with
  | none => acc
  | some g =>
    match acc with
    | none => some (gid, g.endTime)
    | some (b, t) => if g.endTime < t then some (gid, g.endTime) else some (b, t)

/-- Well-formedness of a manager state: the active set is duplicate-free,
every active reference points at an existing grain whose `isActive` flag
is set, every queue entry points at an existing grain, and no two queue
entries reference the same grain. -/
structure WF (s : MState) : Prop where
  nodup : s.activeVoices.Nodup
  activeOK : ∀ gid ∈ s.activeVoices, ∃ g, s.grains.get? gid = some g ∧ g.isActive = true
  queueBound : ∀ e ∈ s.cleanupQueue, e.1 < s.grains.length
  queueNodup : (s.cleanupQueue.map Prod.fst).Nodup

end GVM

namespace Env

/-!
Embedding of `applyOptimizedEnvelope` and the per-shape helpers
(`applyLogarithmicEnvelope`, `applySigmoidEnvelope`, `applyCosineEnvelope`,
`applyGaussianEnvelope`, `applyHanningEnvelope`, `applyTriangularEnvelope`).
Each Web Audio automation call becomes one event in an ordered list; the
transcendental formulas force real numbers, so these definitions are
noncomputable.
-/

/-- Constant `BASE_GAIN = 0.2` from the source. -/
noncomputable def BASE_GAIN : ℝ := 0.2

/-- Kinds of gain-automation calls issued by the envelope code. -/
inductive EKind where
  | setValue
  | linearRamp
  | expRamp
  deriving DecidableEq

/-- One automation event: `setValueAtTime`, `linearRampToValueAtTime` or
`exponentialRampToValueAtTime`, with its value and time arguments. -/
structure AEvent where
  kind : EKind
  value : ℝ
  time : ℝ

/-- Steps constant `ENVELOPE_STEPS.LOGARITHMIC = 10`. -/
def LOG_STEPS : Nat := 10

/-- Steps constant `ENVELOPE_STEPS.SIGMOID = 15`. -/
def SIGMOID_STEPS : Nat := 15

/-- Steps constant `ENVELOPE_STEPS.COSINE = 12`. -/
def COSINE_STEPS : Nat := 12

/-- Steps constant `ENVELOPE_STEPS.GAUSSIAN = 20`. -/
def GAUSSIAN_STEPS : Nat := 20

/-- Steps constant `ENVELOPE_STEPS.HANNING = 16`. -/
def HANNING_STEPS : Nat := 16

/-- The sustain-hold event emitted by shapes 0–4 and 7 when
`sustainTime > 0`. -/
noncomputable def sustainHold (startTime attackTime sustainTime peakGain : ℝ) : List AEvent :=
  if sustainTime > 0 then
    [⟨EKind.setValue, peakGain, startTime + attackTime + sustainTime⟩]
  else []

/-- `applyLogarithmicEnvelope`. -/
noncomputable def applyLogarithmicEnvelope (startTime attackTime sustainTime duration peakGain : ℝ) :
    List AEvent :=
  ((List.range (LOG_STEPS + 1)).map (fun (i : ℕ) =>
    let t : ℝ := (i : ℝ) / (LOG_STEPS : ℝ)
    ⟨EKind.linearRamp,
     peakGain * Real.log (1 + t * (Real.exp 1 - 1)) / Real.log (Real.exp 1),
     startTime + attackTime * t⟩)) ++
  sustainHold startTime attackTime sustainTime peakGain ++
  (let releaseStart := startTime + attackTime + sustainTime
   let releaseTime := duration - attackTime - sustainTime
   (List.range (LOG_STEPS + 1)).map (fun (i : ℕ) =>
     let t : ℝ := (i : ℝ) / (LOG_STEPS : ℝ)
     ⟨EKind.linearRamp,
      peakGain * (1 - Real.log (1 + t * (Real.exp 1 - 1)) / Real.log (Real.exp 1)),
      releaseStart + releaseTime * t⟩))

/-- `applySigmoidEnvelope`. -/
noncomputable def applySigmoidEnvelope (startTime attackTime sustainTime duration peakGain : ℝ) :
    List AEvent :=
  ((List.range (SIGMOID_STEPS + 1)).map (fun (i : ℕ) =>
    let t : ℝ := (i : ℝ) / (SIGMOID_STEPS : ℝ)
    ⟨EKind.linearRamp,
     peakGain * (1 / (1 + Real.exp (-((t - 0.5) * 12)))),
     startTime + attackTime * t⟩)) ++
  sustainHold startTime attackTime sustainTime peakGain ++
  (let releaseStart := startTime + attackTime + sustainTime
   let releaseTime := duration - attackTime - sustainTime
   (List.range (SIGMOID_STEPS + 1)).map (fun (i : ℕ) =>
     let t : ℝ := (i : ℝ) / (SIGMOID_STEPS : ℝ)
     ⟨EKind.linearRamp,
      peakGain * (1 / (1 + Real.exp (-((0.5 - t) * 12)))),
      releaseStart + releaseTime * t⟩))

/-- `applyCosineEnvelope`. -/
noncomputable def applyCosineEnvelope (startTime attackTime sustainTime duration peakGain : ℝ) :
    List AEvent :=
  ((List.range (COSINE_STEPS + 1)).map (fun (i : ℕ) =>
    let t : ℝ := (i : ℝ) / (COSINE_STEPS : ℝ)
    ⟨EKind.linearRamp, peakGain * Real.sin (t * Real.pi / 2),
     startTime + attackTime * t⟩)) ++
  sustainHold startTime attackTime sustainTime peakGain ++
  (let releaseStart := startTime + attackTime + sustainTime
   let releaseTime := duration - attackTime - sustainTime
   (List.range (COSINE_STEPS + 1)).map (fun (i : ℕ) =>
     let t : ℝ := (i : ℝ) / (COSINE_STEPS : ℝ)
     ⟨EKind.linearRamp, peakGain * |Real.sin (Real.pi / 2 + t * Real.pi / 2)|,
      releaseStart + releaseTime * t⟩))

/-- `applyGaussianEnvelope`: a single bell over the whole duration,
`σ = duration/6`, center `duration/2`, 20 samples, no attack/decay split. -/
noncomputable def applyGaussianEnvelope (startTime duration peakGain : ℝ) : List AEvent :=
  let sigma := duration / 6
  let center := duration / 2
  (List.range (GAUSSIAN_STEPS + 1)).map (fun (i : ℕ) =>
    let t : ℝ := ((i : ℝ) / (GAUSSIAN_STEPS : ℝ)) * duration
    let x := t - center
    ⟨EKind.linearRamp, peakGain * Real.exp (-(x * x) / (2 * sigma * sigma)),
     startTime + t⟩)

/-- `applyHanningEnvelope`. -/
noncomputable def applyHanningEnvelope (startTime duration peakGain : ℝ) : List AEvent :=
  (List.range (HANNING_STEPS + 1)).map (fun (i : ℕ) =>
    let t : ℝ := (i : ℝ) / (HANNING_STEPS : ℝ)
    ⟨EKind.linearRamp, peakGain * (0.5 * (1 - Real.cos (2 * Real.pi * t))),
     startTime + duration * t⟩)

/-- `applyTriangularEnvelope`. -/
noncomputable def applyTriangularEnvelope (startTime attackTime sustainTime duration peakGain : ℝ) :
    List AEvent :=
  [⟨EKind.linearRamp, peakGain, startTime + attackTime⟩] ++
  sustainHold startTime attackTime sustainTime peakGain ++
  [⟨EKind.linearRamp, 0, startTime + duration⟩]

/-- `peakGain = BASE_GAIN * (params.volume || 0.7)`: JavaScript `||`
falls back to 0.7 when `volume` is 0 (falsy). -/
noncomputable def peakGainOf (volume : ℝ) : ℝ :=
  BASE_GAIN * (if volume = 0 then 0.7 else volume)

/-- `applyOptimizedEnvelope(gainNode, startTime, duration, params)` as the
ordered list of automation events it issues.  `attackMs`/`decayMs` are
`params.attackTime`/`params.decayTime` (milliseconds), `shape` is
`parseInt(params.envelopeShape)` and `volume` is `params.volume`. -/
noncomputable def applyOptimizedEnvelope (startTime duration attackMs decayMs : ℝ)
    (shape : ℤ) (volume : ℝ) : List AEvent :=
  let attackTime := min (duration * 0.3) (attackMs / 1000)
  let releaseTime := min (duration * 0.7) (decayMs / 1000)
  let sustainTime := max 0 (duration - attackTime - releaseTime)
  let peakGain := peakGainOf volume
  ⟨EKind.setValue, 0, startTime⟩ ::
  (if shape = 0 then
    [⟨EKind.linearRamp, peakGain, startTime + attackTime⟩] ++
    sustainHold startTime attackTime sustainTime peakGain ++
    [⟨EKind.linearRamp, 0, startTime + duration⟩]
  else if shape = 1 then
    [⟨EKind.expRamp, peakGain, startTime + attackTime⟩] ++
    sustainHold startTime attackTime sustainTime peakGain ++
    [⟨EKind.expRamp, 0.001, startTime + duration⟩]
  else if shape = 2 then
    applyLogarithmicEnvelope startTime attackTime sustainTime duration peakGain
  else if shape = 3 then
    applySigmoidEnvelope startTime attackTime sustainTime duration peakGain
  else if shape = 4 then
    applyCosineEnvelope startTime attackTime sustainTime duration peakGain
  else if shape = 5 then
    applyGaussianEnvelope startTime duration peakGain
  else if shape = 6 then
    applyHanningEnvelope startTime duration peakGain
  else if shape = 7 then
    applyTriangularEnvelope startTime attackTime sustainTime duration peakGain
  else
    [⟨EKind.linearRamp, peakGain, startTime + attackTime⟩] ++
    sustainHold startTime attackTime sustainTime peakGain ++
    [⟨EKind.linearRamp, 0, startTime + duration⟩])

end Env

namespace Trig

/-!
Embedding of the per-grain computation inside the loop of
`_triggerGrainForSlot` (the GrainTrigger fan-out).  The successive
`Math.random()` draws are explicit inputs `r1`–`r5` (position-spread
jitter, fixed position jitter, pitch jitter, pan jitter, timing jitter),
each in [0, 1]; `lfoVal` is the `_getLFOValue` result.
-/

/-- The values handed to `createGrain` for one grain. -/
structure TrigResult where
  position : ℚ
  playbackRate : ℚ
  panControl : ℚ
  grainStartTime : ℚ
  deriving DecidableEq, Repr

/-- One iteration of the `_triggerGrainForSlot` grain loop:
`spread`/`grainSize`/`startOffset` are the raw knob values
(`spreadAmount = spread/100`, `grainDurSec = grainSize/1000`). -/
def triggerGrain (spread grainSize startOffset playbackRate panControl : ℚ)
    (bufferDuration lfoVal now : ℚ) (r1 r2 r3 r4 r5 : ℚ) : TrigResult :=
  let spreadAmount := spread / 100
  let grainDurSec := grainSize / 1000
  let base0 := (startOffset / 100) * bufferDuration
  let baseStartPosition := base0 + lfoVal * (bufferDuration - base0 - grainDurSec)
  let positionSec0 :=
    if spreadAmount > 0 then
      baseStartPosition + (r1 - 1/2) * 2 * (spreadAmount * bufferDuration * (1/2))
    else baseStartPosition
  let positionSec :=
    max 0 (min (bufferDuration - grainDurSec) (positionSec0 + (r2 - 1/2) * (5/100)))
  let playbackRate2 :=
    if spreadAmount > 0 then
      max (1/10) (min 2 (playbackRate * (1 + (r3 - 1/2) * 2 * (spreadAmount * (1/2)))))
    else playbackRate
  let panControl2 :=
    if spreadAmount > 0 then
      max (-1) (min 1 (panControl + (r4 - 1/2) * 2 * (spreadAmount * 2)))
    else panControl
  let grainStartTime :=
    if spreadAmount > 0 then now + (r5 - 1/2) * 2 * (spreadAmount * (2/100))
    else now
  ⟨positionSec, playbackRate2, panControl2, grainStartTime⟩

end Trig

namespace Pool

/-!
Embedding of the node pool (`getPooledNodes` / `returnNodesToPool`).
Each node carries its parameter value and its list of scheduled
automation events `(time, value)`; JS `Array.push`/`Array.pop` work on
the end of the arrays.
-/

/-- A pooled gain node: `gain.value` plus scheduled automation. -/
structure GainNode where
  gain : ℚ
  gainEvents : List (ℚ × ℚ)
  deriving DecidableEq, Repr

/-- A pooled biquad filter node: `frequency.value` plus automation. -/
structure FilterNode where
  frequency : ℚ
  freqEvents : List (ℚ × ℚ)
  deriving DecidableEq, Repr

/-- A pooled stereo panner node: `pan.value` plus automation. -/
structure PannerNode where
  pan : ℚ
  panEvents : List (ℚ × ℚ)
  deriving DecidableEq, Repr

/-- The three parallel pool arrays of `this.nodePool`. -/
structure NodePool where
  gainNodes : List GainNode
  filterNodes : List FilterNode
  pannerNodes : List PannerNode
  deriving DecidableEq, Repr

/-- `AudioParam.cancelScheduledValues(t)`: drops every event scheduled at
or after `t`. -/
def cancelScheduledValues (t : ℚ) (evs : List (ℚ × ℚ)) : List (ℚ × ℚ) :=
  evs.filter (fun e => e.1 < t)

/-- `audioContext.createGain()`: default gain 1, no automation. -/
def freshGain : GainNode := ⟨1, []⟩

/-- `audioContext.createBiquadFilter()`: default frequency 350 Hz. -/
def freshFilter : FilterNode := ⟨350, []⟩

/-- `audioContext.createStereoPanner()`: default pan 0. -/
def freshPanner : PannerNode := ⟨0, []⟩

/-- `returnNodesToPool(nodes)`: cancel all automation from time 0, reset
gain to 1, frequency to `DEFAULT_FILTER_FREQUENCY = 350`, pan to 0, and
push each node back onto its pool array. -/
def returnNodesToPool (p : NodePool) (g : GainNode) (f : FilterNode) (pn : PannerNode) :
    NodePool :=
  let g2 : GainNode := ⟨1, cancelScheduledValues 0 g.gainEvents⟩
  let f2 : FilterNode := ⟨GVM.DEFAULT_FILTER_FREQUENCY, cancelScheduledValues 0 f.freqEvents⟩
  let p2 : PannerNode := ⟨0, cancelScheduledValues 0 pn.panEvents⟩
  { gainNodes := p.gainNodes ++ [g2]
    filterNodes := p.filterNodes ++ [f2]
    pannerNodes := p.pannerNodes ++ [p2] }

/-- `getPooledNodes()`: `pop()` from the end of each pool array, creating
a fresh default node when the array is empty. -/
def getPooledNodes (p : NodePool) :
    (GainNode × FilterNode × PannerNode) × NodePool :=
  ((p.gainNodes.getLast?.getD freshGain,
    p.filterNodes.getLast?.getD freshFilter,
    p.pannerNodes.getLast?.getD freshPanner),
   { gainNodes := p.gainNodes.dropLast
     filterNodes := p.filterNodes.dropLast
     pannerNodes := p.pannerNodes.dropLast })

end Pool

namespace ExcM

/-!
Exception-flow model of `createGrain`, `createOptimizedGrain`,
`cleanupGrain` and `performCleanup`: each internal step that the host
platform may make throw is represented by a flag in `FailCfg`, and each
JavaScript `try { … } catch { … return fallback }` block becomes `jsTry`.
The theorems show that no error value ever escapes the outer wrappers.
-/

/-- A thrown JavaScript exception (its payload is irrelevant here). -/
inductive JsErr where
  | err
  deriving DecidableEq, Repr

/-- Which internal steps throw during one call. -/
structure FailCfg where
  sourceFail : Bool
  poolFail : Bool
  filterFail : Bool
  panFail : Bool
  envelopeFail : Bool
  connectFail : Bool
  registerFail : Bool
  stopFail : Bool
  returnFail : Bool
  queueFail : Bool
  deriving DecidableEq, Repr

/-- `try { body } catch (e) { …log…; return fallback }`. -/
def jsTry {α : Type} (body : Except JsErr α) (fallback : α) : Except JsErr α :=
  match body with
  | .ok a => .ok a
  | .error _ => .ok fallback

/-- A primitive step that throws exactly when `b` is set. -/
def throwing (b : Bool) : Except JsErr Unit :=
  if b then .error .err else .ok ()

/-- `getPooledNodes()`: its own try/catch falls back to fresh nodes. -/
def getPooledNodesE (cfg : FailCfg) : Except JsErr Unit :=
  jsTry (throwing cfg.poolFail) ()

/-- `applyOptimizedEnvelope(...)`: catches internally and only logs. -/
def applyOptimizedEnvelopeE (cfg : FailCfg) : Except JsErr Unit :=
  jsTry (throwing cfg.envelopeFail) ()

/-- `createOptimizedGrain(...)`: source creation, pooled nodes, filter and
panner configuration, envelope, connect/start — inner try/catch returns
`null` (`none`) when any uncaught step throws. -/
def createOptimizedGrainE (cfg : FailCfg) : Except JsErr (Option Unit) :=
  jsTry (do
      throwing cfg.sourceFail
      getPooledNodesE cfg
      throwing cfg.filterFail
      throwing cfg.panFail
      applyOptimizedEnvelopeE cfg
      throwing cfg.connectFail
      pure (some ()))
    none

/-- `cleanupGrain(grain)`: outer try/catch; `source.stop()` is wrapped in
its own inner try whose catch ignores the error; `returnNodesToPool`
catches internally. -/
def cleanupGrainE (cfg : FailCfg) : Except JsErr Unit :=
  jsTry (do
      jsTry (throwing cfg.stopFail) ()
      jsTry (throwing cfg.returnFail) ()
      pure ())
    ()

/-- `performCleanup()`: queue scan plus per-grain cleanup, in try/catch. -/
def performCleanupE (cfg : FailCfg) : Except JsErr Unit :=
  jsTry (do
      throwing cfg.queueFail
      cleanupGrainE cfg)
    ()

/-- `forceCleanupOldest()`: scan plus `cleanupGrain`, in try/catch. -/
def forceCleanupOldestE (cfg : FailCfg) : Except JsErr Unit :=
  jsTry (cleanupGrainE cfg) ()

/-- `createGrain(...)`: periodic cleanup, capacity eviction, grain
construction, registration and cleanup scheduling, all inside the outer
try/catch that returns `null`. -/
def createGrainE (cfg : FailCfg) : Except JsErr (Option Unit) :=
  jsTry (do
      performCleanupE cfg
      forceCleanupOldestE cfg
      let g ← createOptimizedGrainE cfg
      throwing (g.isSome && cfg.registerFail)
      pure g)
    none

end ExcM

namespace GVM

theorem lookup_lt_length {α : Type} {l : List α} {n : Nat} {a : α}
    (h : l.get? n = some a) : n < l.length := by
  rcases List.get?_eq_some.mp h with ⟨h, _⟩
  exact h

theorem findOldest_eq (s : MState) :
    findOldest s = s.activeVoices.foldl (oldestStep s) none := by
  rfl

theorem cleanupGrain_queue (s : MState) (gid : Nat) :
    (cleanupGrain s gid).cleanupQueue = s.cleanupQueue := by
  unfold cleanupGrain
  split
  · rfl
  · split <;> rfl

theorem cleanupGrain_grains_length (s : MState) (gid : Nat) :
    (cleanupGrain s gid).grains.length = s.grains.length := by
  unfold cleanupGrain
  split
  · rfl
  · split
    · simp
    · rfl

theorem cleanupGrain_maxVoices (s : MState) (gid : Nat) :
    (cleanupGrain s gid).maxVoices = s.maxVoices := by
  unfold cleanupGrain
  split
  · rfl
  · split <;> rfl

theorem cleanupGrain_count_le (s : MState) (gid : Nat) :
    (cleanupGrain s gid).activeVoices.length ≤ s.activeVoices.length := by
  unfold cleanupGrain
  split
  · exact le_rfl
  · split
    · exact (s.activeVoices.erase_sublist gid).length_le
    · exact le_rfl

theorem WF_cleanupGrain {s : MState} (h : WF s) (gid : Nat) : WF (cleanupGrain s gid) := by
  unfold cleanupGrain
  cases hg : s.grains.get? gid with
  | none => exact h
  | some g =>
    by_cases ha : g.isActive = true
    · simp only [ha, if_true]
      refine ⟨h.nodup.erase gid, ?_, ?_, h.queueNodup⟩
      · intro gid' hmem
        have hne : gid ≠ gid' := by
          intro e
          exact h.nodup.not_mem_erase (e ▸ hmem)
        obtain ⟨g', hg', hact⟩ := h.activeOK gid' (List.mem_of_mem_erase hmem)
        exact ⟨g', by rw [List.get?_set_ne _ _ hne]; exact hg', hact⟩
      · intro e he
        have := h.queueBound e he
        simpa using this
    · simp only [ha, if_false]
      exact h

theorem WF_cleanup_fold {l : List (Nat × ℚ)} {s : MState} (h : WF s) :
    WF (l.foldl (fun st e => cleanupGrain st e.1) s) := by
  induction l generalizing s with
  | nil => exact h
  | cons a l ih => exact ih (WF_cleanupGrain h a.1)

theorem cleanup_fold_count_le (l : List (Nat × ℚ)) (s : MState) :
    (l.foldl (fun st e => cleanupGrain st e.1) s).activeVoices.length ≤
      s.activeVoices.length := by
  induction l generalizing s with
  | nil => exact le_rfl
  | cons a l ih => exact le_trans (ih (cleanupGrain s a.1)) (cleanupGrain_count_le s a.1)

theorem cleanup_fold_maxVoices (l : List (Nat × ℚ)) (s : MState) :
    (l.foldl (fun st e => cleanupGrain st e.1) s).maxVoices = s.maxVoices := by
  induction l generalizing s with
  | nil => rfl
  | cons a l ih => rw [List.foldl_cons, ih, cleanupGrain_maxVoices]

theorem cleanup_fold_grains_length (l : List (Nat × ℚ)) (s : MState) :
    (l.foldl (fun st e => cleanupGrain st e.1) s).grains.length = s.grains.length := by
  induction l generalizing s with
  | nil => rfl
  | cons a l ih => rw [List.foldl_cons, ih, cleanupGrain_grains_length]

theorem WF_performCleanup {s : MState} (h : WF s) (now : ℚ) : WF (performCleanup s now) := by
  unfold performCleanup
  apply WF_cleanup_fold
  refine ⟨h.nodup, h.activeOK, ?_, ?_⟩
  · intro e he
    exact h.queueBound e (List.mem_of_mem_filter he)
  · exact h.queueNodup.sublist ((List.filter_sublist s.cleanupQueue).map Prod.fst)

theorem performCleanup_count_le (s : MState) (now : ℚ) :
    (performCleanup s now).activeVoices.length ≤ s.activeVoices.length := by
  unfold performCleanup
  exact cleanup_fold_count_le _ _

theorem performCleanup_maxVoices (s : MState) (now : ℚ) :
    (performCleanup s now).maxVoices = s.maxVoices := by
  unfold performCleanup
  exact cleanup_fold_maxVoices _ _

theorem oldestStep_origin {s : MState} {acc : Option (Nat × ℚ)} {gid : Nat} {p : Nat × ℚ}
    (h : oldestStep s acc gid = some p) :
    acc = some p ∨ (p.1 = gid ∧ ∃ g, s.grains.get? p.1 = some g ∧ g.endTime = p.2) := by
  unfold oldestStep at h
  cases hg : s.grains.get? gid with
  | none => rw [hg] at h; exact Or.inl h
  | some g =>
    rw [hg] at h
    cases acc with
    | none =>
      right
      cases h
      exact ⟨rfl, g, hg, rfl⟩
    | some q =>
      by_cases hlt : g.endTime < q.2
      · right
        simp only [hlt, if_true] at h
        cases h
        exact ⟨rfl, g, hg, rfl⟩
      · left
        simp only [hlt, if_false] at h
        rw [h]

theorem foldOldest_origin {s : MState} (l : List Nat) (acc : Option (Nat × ℚ)) (p : Nat × ℚ)
    (h : l.foldl (oldestStep s) acc = some p) :
    acc = some p ∨ (p.1 ∈ l ∧ ∃ g, s.grains.get? p.1 = some g ∧ g.endTime = p.2) := by
  induction l generalizing acc with
  | nil => exact Or.inl h
  | cons a l ih =>
    rw [List.foldl_cons] at h
    rcases ih (oldestStep s acc a) h with h1 | ⟨hm, hg⟩
    · rcases oldestStep_origin h1 with h2 | ⟨he, hg⟩
      · exact Or.inl h2
      · exact Or.inr ⟨by rw [he]; exact List.mem_cons_self a l, hg⟩
    · exact Or.inr ⟨List.mem_cons_of_mem a hm, hg⟩

theorem oldestStep_le {s : MState} {acc : Option (Nat × ℚ)} {gid : Nat} {p q : Nat × ℚ}
    (h : oldestStep s acc gid = some p) (hq : acc = some q) : p.2 ≤ q.2 := by
  unfold oldestStep at h
  subst hq
  cases hg : s.grains.get? gid with
  | none => rw [hg] at h; cases h; exact le_rfl
  | some g =>
    rw [hg] at h
    by_cases hlt : g.endTime < q.2
    · simp only [hlt, if_true] at h
      cases h
      exact le_of_lt hlt
    · simp only [hlt, if_false] at h
      cases h
      exact le_rfl

theorem oldestStep_member_le {s : MState} {acc : Option (Nat × ℚ)} {gid : Nat} {p : Nat × ℚ}
    {g : Grain} (h : oldestStep s acc gid = some p)
    (hg : s.grains.get? gid = some g) : p.2 ≤ g.endTime := by
  unfold oldestStep at h
  rw [hg] at h
  cases acc with
  | none => cases h; exact le_rfl
  | some q =>
    by_cases hlt : g.endTime < q.2
    · simp only [hlt, if_true] at h
      cases h
      exact le_rfl
    · simp only [hlt, if_false] at h
      cases h
      exact not_lt.mp hlt

theorem foldOldest_min {s : MState} (l : List Nat) (acc : Option (Nat × ℚ)) (p : Nat × ℚ)
    (h : l.foldl (oldestStep s) acc = some p) :
    (∀ q, acc = some q → p.2 ≤ q.2) ∧
      (∀ gid ∈ l, ∀ g, s.grains.get? gid = some g → p.2 ≤ g.endTime) := by
  induction l generalizing acc with
  | nil =>
    refine ⟨fun q hq => ?_, fun gid hm => absurd hm (List.not_mem_nil gid)⟩
    rw [List.foldl_nil] at h
    rw [h] at hq
    cases hq
    exact le_rfl
  | cons a l ih =>
    rw [List.foldl_cons] at h
    obtain ⟨ihacc, ihmem⟩ := ih (oldestStep s acc a) h
    constructor
    · intro q hq
      cases hstep : oldestStep s acc a with
      | none =>
        exfalso
        subst hq
        unfold oldestStep at hstep
        cases hg : s.grains.get? a with
        | none =>
          rw [hg] at hstep
          simp at hstep
        | some g =>
          rw [hg] at hstep
          by_cases hlt : g.endTime < q.2 <;> simp [hlt] at hstep
      | some r =>
        exact le_trans (ihacc r hstep) (oldestStep_le hstep hq)
    · intro gid hm g hg
      rcases List.mem_cons.mp hm with he | hm2
      · subst he
        cases hstep : oldestStep s acc gid with
        | none =>
          unfold oldestStep at hstep
          rw [hg] at hstep
          cases acc with
          | none => cases hstep
          | some r =>
            by_cases hlt : g.endTime < r.2 <;> simp [hlt] at hstep
        | some r =>
          exact le_trans (ihacc r hstep) (oldestStep_member_le hstep hg)
      · exact ihmem gid hm2 g hg

theorem oldestStep_isSome {s : MState} {acc : Option (Nat × ℚ)} (gid : Nat)
    (h : acc.isSome) : (oldestStep s acc gid).isSome := by
  unfold oldestStep
  cases s.grains.get? gid with
  | none => exact h
  | some g =>
    cases acc with
    | none => rfl
    | some q =>
      by_cases hlt : g.endTime < q.2 <;> simp [hlt]

theorem foldOldest_isSome {s : MState} (l : List Nat) (acc : Option (Nat × ℚ))
    (h : acc.isSome) : (l.foldl (oldestStep s) acc).isSome := by
  induction l generalizing acc with
  | nil => exact h
  | cons a l ih => exact ih (oldestStep s acc a) (oldestStep_isSome a h)

theorem findOldest_isSome {s : MState} (h : WF s) (hne : s.activeVoices ≠ []) :
    (findOldest s).isSome := by
  rw [findOldest_eq]
  cases hl : s.activeVoices with
  | nil => exact absurd hl hne
  | cons a l =>
    obtain ⟨g, hg, _⟩ := h.activeOK a (by rw [hl]; exact List.mem_cons_self a l)
    rw [List.foldl_cons]
    apply foldOldest_isSome
    unfold oldestStep
    rw [hg]
    rfl

/-- The grain selected by the `forceCleanupOldest` scan is an active grain
whose `endTime` is minimal among all active grains. -/
theorem findOldest_spec {s : MState} {gid : Nat} {t : ℚ}
    (h : findOldest s = some (gid, t)) :
    gid ∈ s.activeVoices ∧ (∃ g, s.grains.get? gid = some g ∧ g.endTime = t) ∧
      (∀ gid2 ∈ s.activeVoices, ∀ g2, s.grains.get? gid2 = some g2 → t ≤ g2.endTime) := by
  rw [findOldest_eq] at h
  rcases foldOldest_origin s.activeVoices none (gid, t) h with h1 | ⟨hm, hg⟩
  · cases h1
  · exact ⟨hm, hg, (foldOldest_min s.activeVoices none (gid, t) h).2⟩

theorem WF_forceCleanupOldest {s : MState} (h : WF s) : WF (forceCleanupOldest s) := by
  unfold forceCleanupOldest
  cases findOldest s with
  | none => exact h
  | some p => exact WF_cleanupGrain h p.1

theorem forceCleanupOldest_maxVoices (s : MState) :
    (forceCleanupOldest s).maxVoices = s.maxVoices := by
  unfold forceCleanupOldest
  cases findOldest s with
  | none => rfl
  | some p => exact cleanupGrain_maxVoices s p.1

theorem forceCleanupOldest_count_le (s : MState) :
    (forceCleanupOldest s).activeVoices.length ≤ s.activeVoices.length := by
  unfold forceCleanupOldest
  cases findOldest s with
  | none => exact le_rfl
  | some p => exact cleanupGrain_count_le s p.1

theorem cleanupGrain_count_active {s : MState} {gid : Nat} {g : Grain}
    (hg : s.grains.get? gid = some g) (hact : g.isActive = true)
    (hmem : gid ∈ s.activeVoices) :
    (cleanupGrain s gid).activeVoices.length + 1 = s.activeVoices.length := by
  unfold cleanupGrain
  split
  · next heq => rw [heq] at hg; cases hg
  · next g2 heq =>
    rw [heq] at hg
    injection hg with hgg
    subst hgg
    simp only [hact, if_true]
    have hpos : 0 < s.activeVoices.length := List.length_pos_of_mem hmem
    simp only [List.length_erase_of_mem hmem]
    omega

/-- When the active set is nonempty and well-formed, forced eviction
removes exactly one grain. -/
theorem forceCleanupOldest_count {s : MState} (h : WF s) (hne : s.activeVoices ≠ []) :
    (forceCleanupOldest s).activeVoices.length + 1 = s.activeVoices.length := by
  obtain ⟨p, hfo⟩ := Option.isSome_iff_exists.mp (findOldest_isSome h hne)
  obtain ⟨gid, t⟩ := p
  obtain ⟨hmem, ⟨g, hg, _⟩, _⟩ := findOldest_spec hfo
  obtain ⟨g2, hg2, hact2⟩ := h.activeOK gid hmem
  rw [hg] at hg2
  injection hg2 with hgg
  subst hgg
  unfold forceCleanupOldest
  rw [hfo]
  exact cleanupGrain_count_active hg hact2 hmem

theorem WF_lastCleanup {s : MState} (h : WF s) (n : Nat) :
    WF { s with lastCleanup := n } :=
  ⟨h.nodup, h.activeOK, h.queueBound, h.queueNodup⟩

theorem active_lt_length {s : MState} (h : WF s) :
    ∀ gid ∈ s.activeVoices, gid < s.grains.length := by
  intro gid hm
  obtain ⟨g, hg, _⟩ := h.activeOK gid hm
  exact lookup_lt_length hg

/-- Admitting a fresh grain (append to `grains`, to the active set and to
the cleanup queue, with the fresh index) preserves well-formedness. -/
theorem WF_admit {s : MState} (h : WF s) (gr : Grain) (hact : gr.isActive = true) (qt : ℚ) :
    WF { s with grains := s.grains ++ [gr],
                activeVoices := s.activeVoices ++ [s.grains.length],
                cleanupQueue := s.cleanupQueue ++ [(s.grains.length, qt)] } := by
  have hlt := active_lt_length h
  refine ⟨?_, ?_, ?_, ?_⟩
  · simp only [List.nodup_append, List.nodup_cons, List.not_mem_nil, not_false_iff,
      List.nodup_nil, and_true, true_and]
    exact ⟨h.nodup, by
      intro a ha hb
      simp only [List.mem_singleton] at hb
      exact absurd (hb ▸ hlt a ha) (lt_irrefl _)⟩
  · intro gid hm
    rcases List.mem_append.mp hm with hold | hnew
    · obtain ⟨g, hg, hga⟩ := h.activeOK gid hold
      refine ⟨g, ?_, hga⟩
      rw [List.get?_append (hlt gid hold)]
      exact hg
    · simp only [List.mem_singleton] at hnew
      subst hnew
      exact ⟨gr, List.get?_concat_length _ _, hact⟩
  · intro e he
    simp only [List.length_append, List.length_singleton]
    rcases List.mem_append.mp he with hold | hnew
    · exact Nat.lt_succ_of_lt (h.queueBound e hold)
    · simp only [List.mem_singleton] at hnew
      subst hnew
      exact Nat.lt_succ_self _
  · simp only [List.map_append, List.map_cons, List.map_nil, List.nodup_append,
      List.nodup_cons, List.not_mem_nil, not_false_iff, List.nodup_nil, and_true, true_and]
    exact ⟨h.queueNodup, by
      intro a ha hb
      simp only [List.mem_singleton] at hb
      obtain ⟨e, he, hfst⟩ := List.mem_map.mp ha
      exact absurd (hfst ▸ hb ▸ h.queueBound e he) (lt_irrefl _)⟩

theorem WF_admitGrain {s : MState} (h : WF s) (st d : ℚ) : WF (admitGrain s st d) :=
  WF_admit h _ rfl _

theorem WF_createGrainPhase1 {s : MState} (h : WF s) (now : ℚ) :
    WF (createGrainPhase1 s now) := by
  simp only [createGrainPhase1]
  split
  · exact WF_performCleanup (WF_lastCleanup h _) now
  · exact WF_lastCleanup h _

theorem WF_createGrainPhase2 {s : MState} (h : WF s) : WF (createGrainPhase2 s) := by
  unfold createGrainPhase2
  split
  · exact WF_forceCleanupOldest h
  · exact h

theorem WF_createGrain {s : MState} (h : WF s) (now st d : ℚ) (ok : Bool) :
    WF (createGrain s now st d ok) := by
  simp only [createGrain]
  split
  · exact WF_admitGrain (WF_createGrainPhase2 (WF_createGrainPhase1 h now)) st d
  · exact WF_createGrainPhase2 (WF_createGrainPhase1 h now)

theorem createGrainPhase1_maxVoices (s : MState) (now : ℚ) :
    (createGrainPhase1 s now).maxVoices = s.maxVoices := by
  simp only [createGrainPhase1]
  split
  · exact performCleanup_maxVoices _ now
  · rfl

theorem createGrainPhase1_count_le (s : MState) (now : ℚ) :
    (createGrainPhase1 s now).activeVoices.length ≤ s.activeVoices.length := by
  simp only [createGrainPhase1]
  split
  · exact performCleanup_count_le _ now
  · exact le_rfl

theorem createGrainPhase2_maxVoices (s : MState) :
    (createGrainPhase2 s).maxVoices = s.maxVoices := by
  unfold createGrainPhase2
  split
  · exact forceCleanupOldest_maxVoices s
  · rfl

/-- After the capacity phase the active count is strictly below
`maxVoices`, provided `maxVoices ≥ 1` and the count was within bounds. -/
theorem createGrainPhase2_count {s : MState} (h : WF s) (hmax : 1 ≤ s.maxVoices)
    (hc : s.activeVoices.length ≤ s.maxVoices) :
    (createGrainPhase2 s).activeVoices.length < s.maxVoices := by
  unfold createGrainPhase2
  split
  · next hge =>
    have hne : s.activeVoices ≠ [] := by
      intro he
      rw [he] at hge
      simp at hge
      omega
    have := forceCleanupOldest_count h hne
    omega
  · next hlt =>
    omega

theorem admitGrain_count (s : MState) (st d : ℚ) :
    (admitGrain s st d).activeVoices.length = s.activeVoices.length + 1 := by
  unfold admitGrain scheduleCleanup
  simp

theorem admitGrain_maxVoices (s : MState) (st d : ℚ) :
    (admitGrain s st d).maxVoices = s.maxVoices := by
  rfl

theorem createGrain_count_le {s : MState} (h : WF s) (hmax : 1 ≤ s.maxVoices)
    (hc : s.activeVoices.length ≤ s.maxVoices) (now st d : ℚ) (ok : Bool) :
    (createGrain s now st d ok).activeVoices.length ≤ s.maxVoices := by
  simp only [createGrain]
  have h1 : WF (createGrainPhase1 s now) := WF_createGrainPhase1 h now
  have hm1 : (createGrainPhase1 s now).maxVoices = s.maxVoices :=
    createGrainPhase1_maxVoices s now
  have hmax1 : 1 ≤ (createGrainPhase1 s now).maxVoices := by rw [hm1]; exact hmax
  have hc1 : (createGrainPhase1 s now).activeVoices.length ≤
      (createGrainPhase1 s now).maxVoices := by
    rw [hm1]
    exact le_trans (createGrainPhase1_count_le s now) hc
  have h2 := createGrainPhase2_count h1 hmax1 hc1
  rw [hm1] at h2
  split
  · rw [admitGrain_count]
    omega
  · omega

theorem WF_cleanup_fold_ids {l : List Nat} {s : MState} (h : WF s) :
    WF (l.foldl (fun st gid => cleanupGrain st gid) s) := by
  induction l generalizing s with
  | nil => exact h
  | cons a l ih => exact ih (WF_cleanupGrain h a)

theorem cleanup_fold_ids_count_le (l : List Nat) (s : MState) :
    (l.foldl (fun st gid => cleanupGrain st gid) s).activeVoices.length ≤
      s.activeVoices.length := by
  induction l generalizing s with
  | nil => exact le_rfl
  | cons a l ih => exact le_trans (ih (cleanupGrain s a)) (cleanupGrain_count_le s a)

theorem cleanup_fold_ids_maxVoices (l : List Nat) (s : MState) :
    (l.foldl (fun st gid => cleanupGrain st gid) s).maxVoices = s.maxVoices := by
  induction l generalizing s with
  | nil => rfl
  | cons a l ih => rw [List.foldl_cons, ih, cleanupGrain_maxVoices]

theorem WF_stopAll {s : MState} (h : WF s) : WF (stopAll s) := by
  unfold stopAll
  have h1 := WF_cleanup_fold_ids (l := s.activeVoices) h
  exact ⟨h1.nodup, h1.activeOK, (by intro e he; cases he), List.nodup_nil⟩

theorem stopAll_count_le (s : MState) :
    (stopAll s).activeVoices.length ≤ s.activeVoices.length := by
  unfold stopAll
  exact cleanup_fold_ids_count_le _ _

theorem stopAll_maxVoices (s : MState) : (stopAll s).maxVoices = s.maxVoices := by
  unfold stopAll
  exact cleanup_fold_ids_maxVoices _ _

theorem WF_step {s : MState} (h : WF s) (e : Event) : WF (step s e) := by
  cases e with
  | create now st d ok => exact WF_createGrain h now st d ok
  | ended gid => exact WF_cleanupGrain h gid
  | drain now => exact WF_performCleanup h now
  | stop => exact WF_stopAll h

theorem step_maxVoices (s : MState) (e : Event) : (step s e).maxVoices = s.maxVoices := by
  cases e with
  | create now st d ok =>
    simp only [step, createGrain]
    split
    · rw [admitGrain_maxVoices, createGrainPhase2_maxVoices, createGrainPhase1_maxVoices]
    · rw [createGrainPhase2_maxVoices, createGrainPhase1_maxVoices]
  | ended gid => exact cleanupGrain_maxVoices s gid
  | drain now => exact performCleanup_maxVoices s now
  | stop => exact stopAll_maxVoices s

theorem step_count_le {s : MState} (h : WF s) (hmax : 1 ≤ s.maxVoices)
    (hc : s.activeVoices.length ≤ s.maxVoices) (e : Event) :
    (step s e).activeVoices.length ≤ s.maxVoices := by
  cases e with
  | create now st d ok => exact createGrain_count_le h hmax hc now st d ok
  | ended gid => exact le_trans (cleanupGrain_count_le s gid) hc
  | drain now => exact le_trans (performCleanup_count_le s now) hc
  | stop => exact le_trans (stopAll_count_le s) hc

theorem WF_initState (maxVoices : Nat) : WF (initState maxVoices) := by
  refine ⟨List.nodup_nil, ?_, ?_, List.nodup_nil⟩
  · intro gid hm
    cases hm
  · intro e he
    cases he

theorem foldl_step_invariant (evs : List Event) {s : MState} (h : WF s)
    (hmax : 1 ≤ s.maxVoices) (hc : s.activeVoices.length ≤ s.maxVoices) :
    WF (evs.foldl step s) ∧ (evs.foldl step s).maxVoices = s.maxVoices ∧
      (evs.foldl step s).activeVoices.length ≤ s.maxVoices := by
  induction evs generalizing s with
  | nil => exact ⟨h, rfl, hc⟩
  | cons e evs ih =>
    rw [List.foldl_cons]
    have hm := step_maxVoices s e
    obtain ⟨w1, w2, w3⟩ := ih (WF_step h e) (by rw [hm]; exact hmax)
      (by rw [hm]; exact step_count_le h hmax hc e)
    exact ⟨w1, by rw [w2, hm], by rw [hm] at w3; exact w3⟩

theorem run_WF (maxVoices : Nat) (evs : List Event) (hmax : 1 ≤ maxVoices) :
    WF (run maxVoices evs) ∧ (run maxVoices evs).maxVoices = maxVoices ∧
      (run maxVoices evs).activeVoices.length ≤ maxVoices := by
  exact foldl_step_invariant evs (WF_initState maxVoices) hmax (Nat.zero_le _)

theorem foldl_step_WF (evs : List Event) {s : MState} (h : WF s) : WF (evs.foldl step s) := by
  induction evs generalizing s with
  | nil => exact h
  | cons e evs ih => exact ih (WF_step h e)

theorem run_WF0 (maxVoices : Nat) (evs : List Event) : WF (run maxVoices evs) :=
  foldl_step_WF evs (WF_initState maxVoices)

theorem cleanupGrain_eq_of_none {s : MState} {gid : Nat}
    (hg : s.grains.get? gid = none) : cleanupGrain s gid = s := by
  unfold cleanupGrain
  rw [hg]

theorem cleanupGrain_eq_of_inactive {s : MState} {gid : Nat} {g : Grain}
    (hg : s.grains.get? gid = some g) (ha : g.isActive = false) :
    cleanupGrain s gid = s := by
  unfold cleanupGrain
  rw [hg]
  simp [ha]

theorem cleanupGrain_eq_of_active {s : MState} {gid : Nat} {g : Grain}
    (hg : s.grains.get? gid = some g) (ha : g.isActive = true) :
    cleanupGrain s gid =
      { s with grains := s.grains.set gid { g with isActive := false, sourceStopped := true }
               activeVoices := s.activeVoices.erase gid } := by
  unfold cleanupGrain
  rw [hg]
  simp [ha]

/-- `cleanupGrain` is idempotent: a second call on the same grain is a
no-op on the whole state. -/
theorem cleanupGrain_idem (s : MState) (gid : Nat) :
    cleanupGrain (cleanupGrain s gid) gid = cleanupGrain s gid := by
  cases hg : s.grains.get? gid with
  | none =>
    rw [cleanupGrain_eq_of_none hg, cleanupGrain_eq_of_none hg]
  | some g =>
    by_cases ha : g.isActive = true
    · have h1 := cleanupGrain_eq_of_active hg ha
      have hlt := lookup_lt_length hg
      rw [h1]
      apply cleanupGrain_eq_of_inactive (g := { g with isActive := false, sourceStopped := true })
      · simp only []
        exact List.get?_set_eq_of_lt _ hlt
      · rfl
    · have ha2 : g.isActive = false := by
        cases hb : g.isActive
        · rfl
        · exact absurd hb ha
      rw [cleanupGrain_eq_of_inactive hg ha2, cleanupGrain_eq_of_inactive hg ha2]

/-- “The grain at `gid` is already deactivated.” -/
def inactiveAt (s : MState) (gid : Nat) : Prop :=
  ∀ g, s.grains.get? gid = some g → g.isActive = false

theorem cleanupGrain_inactive_mono {s : MState} {gid0 : Nat} (gid : Nat)
    (h : inactiveAt s gid0) : inactiveAt (cleanupGrain s gid) gid0 := by
  cases hg : s.grains.get? gid with
  | none => rw [cleanupGrain_eq_of_none hg]; exact h
  | some g =>
    by_cases ha : g.isActive = true
    · rw [cleanupGrain_eq_of_active hg ha]
      intro g2 hg2
      simp only [] at hg2
      by_cases he : gid = gid0
      · subst he
        rw [List.get?_set_eq_of_lt _ (lookup_lt_length hg)] at hg2
        injection hg2 with hgg
        rw [← hgg]
      · rw [List.get?_set_ne _ _ he] at hg2
        exact h g2 hg2
    · have ha2 : g.isActive = false := by
        cases hb : g.isActive
        · rfl
        · exact absurd hb ha
      rw [cleanupGrain_eq_of_inactive hg ha2]
      exact h

theorem cleanup_fold_inactive_mono {l : List (Nat × ℚ)} {s : MState} {gid0 : Nat}
    (h : inactiveAt s gid0) :
    inactiveAt (l.foldl (fun st e => cleanupGrain st e.1) s) gid0 := by
  induction l generalizing s with
  | nil => exact h
  | cons a l ih => exact ih (cleanupGrain_inactive_mono a.1 h)

theorem cleanup_fold_ids_inactive_mono {l : List Nat} {s : MState} {gid0 : Nat}
    (h : inactiveAt s gid0) :
    inactiveAt (l.foldl (fun st gid => cleanupGrain st gid) s) gid0 := by
  induction l generalizing s with
  | nil => exact h
  | cons a l ih => exact ih (cleanupGrain_inactive_mono a h)

theorem performCleanup_inactive_mono {s : MState} {gid0 : Nat} (now : ℚ)
    (h : inactiveAt s gid0) : inactiveAt (performCleanup s now) gid0 := by
  unfold performCleanup
  exact cleanup_fold_inactive_mono h

theorem forceCleanupOldest_inactive_mono {s : MState} {gid0 : Nat}
    (h : inactiveAt s gid0) : inactiveAt (forceCleanupOldest s) gid0 := by
  unfold forceCleanupOldest
  cases findOldest s with
  | none => exact h
  | some p => exact cleanupGrain_inactive_mono p.1 h

theorem admitGrain_inactive_mono {s : MState} {gid0 : Nat} (st d : ℚ)
    (h : inactiveAt s gid0) (hlt : gid0 < s.grains.length) :
    inactiveAt (admitGrain s st d) gid0 := by
  intro g2 hg2
  simp only [admitGrain, scheduleCleanup] at hg2
  rw [List.get?_append hlt] at hg2
  exact h g2 hg2

theorem performCleanup_grains_length (s : MState) (now : ℚ) :
    (performCleanup s now).grains.length = s.grains.length := by
  unfold performCleanup
  exact cleanup_fold_grains_length _ _

theorem forceCleanupOldest_grains_length (s : MState) :
    (forceCleanupOldest s).grains.length = s.grains.length := by
  unfold forceCleanupOldest
  cases findOldest s with
  | none => rfl
  | some p => exact cleanupGrain_grains_length s p.1

theorem createGrainPhase1_grains_length (s : MState) (now : ℚ) :
    (createGrainPhase1 s now).grains.length = s.grains.length := by
  simp only [createGrainPhase1]
  split
  · exact performCleanup_grains_length _ now
  · rfl

theorem createGrainPhase2_grains_length (s : MState) :
    (createGrainPhase2 s).grains.length = s.grains.length := by
  simp only [createGrainPhase2]
  split
  · exact forceCleanupOldest_grains_length s
  · rfl

theorem step_inactive_mono {s : MState} {gid0 : Nat} (e : Event)
    (h : inactiveAt s gid0) (hlt : gid0 < s.grains.length) :
    inactiveAt (step s e) gid0 := by
  cases e with
  | create now st d ok =>
    simp only [step, createGrain]
    have h1 : inactiveAt (createGrainPhase1 s now) gid0 := by
      simp only [createGrainPhase1]
      split
      · exact performCleanup_inactive_mono now h
      · exact h
    have h2 : inactiveAt (createGrainPhase2 (createGrainPhase1 s now)) gid0 := by
      simp only [createGrainPhase2]
      split
      · exact forceCleanupOldest_inactive_mono h1
      · exact h1
    have hl2 : gid0 < (createGrainPhase2 (createGrainPhase1 s now)).grains.length := by
      rw [createGrainPhase2_grains_length, createGrainPhase1_grains_length]
      exact hlt
    split
    · exact admitGrain_inactive_mono st d h2 hl2
    · exact h2
  | ended gid => exact cleanupGrain_inactive_mono gid h
  | drain now => exact performCleanup_inactive_mono now h
  | stop =>
    simp only [step, stopAll]
    intro g2 hg2
    exact cleanup_fold_ids_inactive_mono h g2 hg2

/-- C1 (amended: requires `maxVoices ≥ 1`): for every sequence of calls on
a manager constructed with capacity `maxVoices ≥ 1`, the active-voice
count reported by `getActiveVoiceCount()` is at most `maxVoices` after
every call; at capacity `createGrain` evicts the earliest-ending grain
before admitting the new one. -/
theorem C1_voice_bound (maxVoices : Nat) (hmax : 1 ≤ maxVoices) (evs : List Event) :
    getActiveVoiceCount (run maxVoices evs) ≤ maxVoices :=
  (run_WF maxVoices evs hmax).2.2

theorem C1_voice_bound_witness :
    1 ≤ 2 ∧ getActiveVoiceCount (run 2 [Event.create 0 0 1 true,
      Event.create 0 0 (1/2) true, Event.create 0 0 (3/10) true]) ≤ 2 :=
  ⟨by decide, C1_voice_bound 2 (by decide) _⟩

/-- C1 counterexample: with capacity `maxVoices = 0` a single `createGrain`
call leaves one active voice, so `getActiveVoiceCount() ≤ maxVoices` fails
(the eviction scan finds nothing in an empty set and the new grain is
admitted anyway). -/
theorem C1_counterexample :
    ¬ (getActiveVoiceCount (run 0 [Event.create 0 0 1 true]) ≤ 0) := by
  norm_num [getActiveVoiceCount, run, step, createGrain, createGrainPhase1, createGrainPhase2, performCleanup,
      forceCleanupOldest, findOldest, cleanupGrain, admitGrain, scheduleCleanup, initState,
      CLEANUP_INTERVAL, CLEANUP_DELAY, List.foldl, List.filter, List.erase]

theorem forceCleanupOldest_eq {s : MState} {gid : Nat} {t : ℚ}
    (hfo : findOldest s = some (gid, t)) :
    forceCleanupOldest s = cleanupGrain s gid := by
  unfold forceCleanupOldest
  split
  · next heq =>
    rw [heq] at hfo
    cases hfo
  · next gid2 t2 heq =>
    rw [heq] at hfo
    injection hfo with h1
    injection h1 with h2 h3
    rw [h2]

/-- C2: forced eviction removes a grain whose `endTime` is minimal among
all active grains (it is active beforehand and gone afterwards); in the
scenario `maxVoices = 2` — grain A ending at 1.0, grain B ending at 0.5,
then grain C — B (index 1) is evicted and exactly {A, C} stays active. -/
theorem C2_eviction_minimal :
    (∀ (s : MState) (gid : Nat) (t : ℚ), WF s → findOldest s = some (gid, t) →
      gid ∈ s.activeVoices ∧
      (∃ g, s.grains.get? gid = some g ∧ g.endTime = t) ∧
      (∀ gid2 ∈ s.activeVoices, ∀ g2, s.grains.get? gid2 = some g2 → t ≤ g2.endTime) ∧
      gid ∉ (forceCleanupOldest s).activeVoices) ∧
    ((run 2 [Event.create 0 0 1 true, Event.create 0 0 (1/2) true,
        Event.create 0 0 (3/10) true]).activeVoices = [0, 2] ∧
      ((run 2 [Event.create 0 0 1 true, Event.create 0 0 (1/2) true,
        Event.create 0 0 (3/10) true]).grains.get? 1).map Grain.isActive = some false) := by
  constructor
  · intro s gid t h hfo
    obtain ⟨hmem, hex, hmin⟩ := findOldest_spec hfo
    refine ⟨hmem, hex, hmin, ?_⟩
    obtain ⟨g, hg, hact⟩ := h.activeOK gid hmem
    rw [forceCleanupOldest_eq hfo, cleanupGrain_eq_of_active hg hact]
    exact h.nodup.not_mem_erase
  · constructor
    · norm_num [run, step, createGrain, createGrainPhase1, createGrainPhase2, performCleanup,
      forceCleanupOldest, findOldest, cleanupGrain, admitGrain, scheduleCleanup, initState,
      CLEANUP_INTERVAL, CLEANUP_DELAY, List.foldl, List.filter, List.erase]
      decide
    · norm_num [run, step, createGrain, createGrainPhase1, createGrainPhase2, performCleanup,
      forceCleanupOldest, findOldest, cleanupGrain, admitGrain, scheduleCleanup, initState,
      CLEANUP_INTERVAL, CLEANUP_DELAY, List.foldl, List.filter, List.erase]

theorem C2_eviction_minimal_witness :
    1 ∈ (run 2 [Event.create 0 0 1 true, Event.create 0 0 (1/2) true]).activeVoices ∧
    1 ∉ (forceCleanupOldest
        (run 2 [Event.create 0 0 1 true, Event.create 0 0 (1/2) true])).activeVoices := by
  have h := C2_eviction_minimal.1
    (run 2 [Event.create 0 0 1 true, Event.create 0 0 (1/2) true]) 1 (1/2)
    (run_WF0 2 _) (by norm_num [run, step, createGrain, createGrainPhase1, createGrainPhase2, performCleanup,
      forceCleanupOldest, findOldest, cleanupGrain, admitGrain, scheduleCleanup, initState,
      CLEANUP_INTERVAL, CLEANUP_DELAY, List.foldl, List.filter, List.erase])
  exact ⟨h.1, h.2.2.2⟩

/-- C3: once a grain's `isActive` flag is false it stays false under every
further operation (the flag never returns to true), and `cleanupGrain` is
idempotent: a second call on the same grain changes nothing. -/
theorem C3_deactivation_once_and_idempotent :
    (∀ (s : MState) (e : Event) (gid : Nat) (g : Grain),
        s.grains.get? gid = some g → g.isActive = false →
        inactiveAt (step s e) gid) ∧
    (∀ (s : MState) (gid : Nat),
        cleanupGrain (cleanupGrain s gid) gid = cleanupGrain s gid) := by
  constructor
  · intro s e gid g hg ha
    apply step_inactive_mono e
    · intro g2 hg2
      rw [hg] at hg2
      injection hg2 with hgg
      rw [← hgg]
      exact ha
    · exact lookup_lt_length hg
  · intro s gid
    exact cleanupGrain_idem s gid

theorem C3_deactivation_witness :
    inactiveAt (step (run 1 [Event.create 0 0 1 true, Event.create 0 0 (1/2) true])
      (Event.drain 5)) 0 := by
  exact C3_deactivation_once_and_idempotent.1
    (run 1 [Event.create 0 0 1 true, Event.create 0 0 (1/2) true]) (Event.drain 5) 0
    { endTime := 1, isActive := false, sourceStopped := true, nodesId := 0 }
    (by norm_num [run, step, createGrain, createGrainPhase1, createGrainPhase2, performCleanup,
      forceCleanupOldest, findOldest, cleanupGrain, admitGrain, scheduleCleanup, initState,
      CLEANUP_INTERVAL, CLEANUP_DELAY, List.foldl, List.filter, List.erase]) rfl

/-- C9 (amended): in every reachable state each grain has at most one
pending cleanup entry, but forced eviction does not remove the evicted
grain's queue entry — `forceCleanupOldest` leaves the queue untouched and
the stale entry is removed only when the drain later processes it (the
second `cleanupGrain` being a no-op). -/
theorem C9_queue_entries :
    (∀ (maxVoices : Nat) (evs : List Event) (gid : Nat),
        ((run maxVoices evs).cleanupQueue.map Prod.fst).count gid ≤ 1) ∧
    (∀ s : MState, (forceCleanupOldest s).cleanupQueue = s.cleanupQueue) := by
  constructor
  · intro maxVoices evs gid
    exact List.nodup_iff_count_le_one.mp (run_WF0 maxVoices evs).queueNodup gid
  · intro s
    unfold forceCleanupOldest
    cases findOldest s with
    | none => rfl
    | some p => exact cleanupGrain_queue s p.1

/-- C9 counterexample: capacity 1, grain A (entry scheduled at 1.1) is
evicted when grain B is created, yet A's entry is still queued while A is
deactivated and out of the active set. -/
theorem C9_counterexample :
    (0, 11/10) ∈ (run 1 [Event.create 0 0 1 true,
        Event.create 0 0 (1/2) true]).cleanupQueue ∧
    ((run 1 [Event.create 0 0 1 true,
        Event.create 0 0 (1/2) true]).grains.get? 0).map Grain.isActive = some false ∧
    0 ∉ (run 1 [Event.create 0 0 1 true,
        Event.create 0 0 (1/2) true]).activeVoices := by
  norm_num [run, step, createGrain, createGrainPhase1, createGrainPhase2, performCleanup,
      forceCleanupOldest, findOldest, cleanupGrain, admitGrain, scheduleCleanup, initState,
      CLEANUP_INTERVAL, CLEANUP_DELAY, List.foldl, List.filter, List.erase]

/-- C10: `setMasterVolume(level)` stores `min(max(level, 0), 1)` into the
master gain, so the master gain stays in `[0, 1]` for every input. -/
theorem C10_master_volume_clamp (s : MState) (level : ℚ) :
    (setMasterVolume s level).masterGainValue = min (max level 0) 1 ∧
    0 ≤ (setMasterVolume s level).masterGainValue ∧
    (setMasterVolume s level).masterGainValue ≤ 1 := by
  refine ⟨?_, ?_, ?_⟩
  · show max 0 (min 1 level) = min (max level 0) 1
    rw [max_min_distrib_left, max_comm (0 : ℚ) level, min_comm]
    norm_num
  · exact le_max_left 0 _
  · exact max_le (by norm_num) (min_le_left 1 level)

end GVM

namespace Env

theorem getLast?_map_range {α : Type} (f : ℕ → α) (n : ℕ) :
    ((List.range (n + 1)).map f).getLast? = some (f n) := by
  rw [List.range_succ, List.map_append,
    List.getLast?_append_of_ne_nil (List.map f (List.range n)) (by simp)]
  simp

theorem getLast?_cons_ne_nil {α : Type} (a : α) {l : List α} (h : l ≠ []) :
    (a :: l).getLast? = l.getLast? := by
  rw [show a :: l = [a] ++ l from rfl, List.getLast?_append_of_ne_nil [a] h]

theorem getLast?_append3 {α : Type} (l1 l2 l3 : List α) (h : l3 ≠ []) :
    (l1 ++ l2 ++ l3).getLast? = l3.getLast? :=
  List.getLast?_append_of_ne_nil (l1 ++ l2) h

theorem applyLogarithmicEnvelope_getLast (st a sus d peak : ℝ) :
    (applyLogarithmicEnvelope st a sus d peak).getLast? =
      some ⟨EKind.linearRamp, 0, st + d⟩ := by
  unfold applyLogarithmicEnvelope
  rw [getLast?_append3 _ _ _ (by simp [LOG_STEPS]), getLast?_map_range]
  simp only [Option.some.injEq, AEvent.mk.injEq, LOG_STEPS]
  refine ⟨trivial, ?_, by push_cast; ring⟩
  rw [show (1 : ℝ) + ((10 : ℕ) : ℝ) / ((10 : ℕ) : ℝ) * (Real.exp 1 - 1) = Real.exp 1 by
    norm_num]
  rw [Real.log_exp]
  norm_num

theorem applySigmoidEnvelope_getLast (st a sus d peak : ℝ) :
    (applySigmoidEnvelope st a sus d peak).getLast? =
      some ⟨EKind.linearRamp, peak * (1 + Real.exp 6)⁻¹, st + d⟩ := by
  unfold applySigmoidEnvelope
  rw [getLast?_append3 _ _ _ (by simp [SIGMOID_STEPS]), getLast?_map_range]
  simp only [Option.some.injEq, AEvent.mk.injEq, SIGMOID_STEPS]
  refine ⟨trivial, ?_, by push_cast; ring⟩
  rw [show -((0.5 - ((15 : ℕ) : ℝ) / ((15 : ℕ) : ℝ)) * 12) = (6 : ℝ) by norm_num, one_div]

theorem applyCosineEnvelope_getLast (st a sus d peak : ℝ) :
    (applyCosineEnvelope st a sus d peak).getLast? =
      some ⟨EKind.linearRamp, 0, st + d⟩ := by
  unfold applyCosineEnvelope
  rw [getLast?_append3 _ _ _ (by simp [COSINE_STEPS]), getLast?_map_range]
  simp only [Option.some.injEq, AEvent.mk.injEq, COSINE_STEPS]
  refine ⟨trivial, ?_, by push_cast; ring⟩
  rw [show Real.pi / 2 + ((12 : ℕ) : ℝ) / ((12 : ℕ) : ℝ) * Real.pi / 2 = Real.pi by
    rw [show ((12 : ℕ) : ℝ) / ((12 : ℕ) : ℝ) = 1 by norm_num]
    ring]
  rw [Real.sin_pi, abs_zero, mul_zero]

theorem applyGaussianEnvelope_getLast (st d peak : ℝ) (hd : d ≠ 0) :
    (applyGaussianEnvelope st d peak).getLast? =
      some ⟨EKind.linearRamp, peak * Real.exp (-(9 / 2 : ℝ)), st + d⟩ := by
  unfold applyGaussianEnvelope
  rw [getLast?_map_range]
  simp only [Option.some.injEq, AEvent.mk.injEq, GAUSSIAN_STEPS]
  have h20 : (((20 : ℕ) : ℝ) / ((20 : ℕ) : ℝ)) * d = d := by norm_num
  refine ⟨trivial, ?_, by rw [h20]⟩
  rw [h20]
  have hx : d - d / 2 = d / 2 := by ring
  rw [hx]
  have harg : -(d / 2 * (d / 2)) / (2 * (d / 6) * (d / 6)) = -(9 / 2 : ℝ) := by
    field_simp
    ring
  rw [harg]

theorem applyHanningEnvelope_getLast (st d peak : ℝ) :
    (applyHanningEnvelope st d peak).getLast? =
      some ⟨EKind.linearRamp, 0, st + d⟩ := by
  unfold applyHanningEnvelope
  rw [getLast?_map_range]
  simp only [Option.some.injEq, AEvent.mk.injEq, HANNING_STEPS]
  refine ⟨trivial, ?_, by push_cast; ring⟩
  rw [show 2 * Real.pi * (((16 : ℕ) : ℝ) / ((16 : ℕ) : ℝ)) = 2 * Real.pi by norm_num]
  rw [Real.cos_two_pi]
  norm_num

theorem applyTriangularEnvelope_getLast (st a sus d peak : ℝ) :
    (applyTriangularEnvelope st a sus d peak).getLast? =
      some ⟨EKind.linearRamp, 0, st + d⟩ := by
  unfold applyTriangularEnvelope
  rw [getLast?_append3 _ _ _ (by simp)]
  rfl

theorem applyLogarithmicEnvelope_ne_nil (st a sus d peak : ℝ) :
    applyLogarithmicEnvelope st a sus d peak ≠ [] := by
  unfold applyLogarithmicEnvelope
  simp [LOG_STEPS]

theorem applySigmoidEnvelope_ne_nil (st a sus d peak : ℝ) :
    applySigmoidEnvelope st a sus d peak ≠ [] := by
  unfold applySigmoidEnvelope
  simp [SIGMOID_STEPS]

theorem applyCosineEnvelope_ne_nil (st a sus d peak : ℝ) :
    applyCosineEnvelope st a sus d peak ≠ [] := by
  unfold applyCosineEnvelope
  simp [COSINE_STEPS]

theorem applyGaussianEnvelope_ne_nil (st d peak : ℝ) :
    applyGaussianEnvelope st d peak ≠ [] := by
  unfold applyGaussianEnvelope
  simp [GAUSSIAN_STEPS]

theorem applyHanningEnvelope_ne_nil (st d peak : ℝ) :
    applyHanningEnvelope st d peak ≠ [] := by
  unfold applyHanningEnvelope
  simp [HANNING_STEPS]

theorem applyTriangularEnvelope_ne_nil (st a sus d peak : ℝ) :
    applyTriangularEnvelope st a sus d peak ≠ [] := by
  unfold applyTriangularEnvelope
  simp

/-- C4 (amended): every shape's automation starts with `setValueAtTime(0, startTime)`;
the final event is at `startTime + duration` for every shape, with final
gain exactly 0 for shapes 0, 2, 4, 6, 7 (and the default branch), but the
absolute constant 0.001 for shape 1 (not `0.001·peakGain`),
`peakGain/(1 + e⁶) ≈ 0.0025·peakGain` for shape 3, and
`peakGain·e^(−9/2) ≈ 0.0111·peakGain` for shape 5 — the last three exceed
`0.001·peakGain`. -/
theorem C4_envelope_endpoints (startTime duration attackMs decayMs volume : ℝ)
    (hd : 0 < duration) :
    (∀ shape : ℤ,
      (applyOptimizedEnvelope startTime duration attackMs decayMs shape volume).head? =
        some ⟨EKind.setValue, 0, startTime⟩) ∧
    (applyOptimizedEnvelope startTime duration attackMs decayMs 0 volume).getLast? =
      some ⟨EKind.linearRamp, 0, startTime + duration⟩ ∧
    (applyOptimizedEnvelope startTime duration attackMs decayMs 1 volume).getLast? =
      some ⟨EKind.expRamp, 0.001, startTime + duration⟩ ∧
    (applyOptimizedEnvelope startTime duration attackMs decayMs 2 volume).getLast? =
      some ⟨EKind.linearRamp, 0, startTime + duration⟩ ∧
    (applyOptimizedEnvelope startTime duration attackMs decayMs 3 volume).getLast? =
      some ⟨EKind.linearRamp, peakGainOf volume * (1 / (1 + Real.exp 6)),
        startTime + duration⟩ ∧
    (applyOptimizedEnvelope startTime duration attackMs decayMs 4 volume).getLast? =
      some ⟨EKind.linearRamp, 0, startTime + duration⟩ ∧
    (applyOptimizedEnvelope startTime duration attackMs decayMs 5 volume).getLast? =
      some ⟨EKind.linearRamp, peakGainOf volume * Real.exp (-(9 / 2 : ℝ)),
        startTime + duration⟩ ∧
    (applyOptimizedEnvelope startTime duration attackMs decayMs 6 volume).getLast? =
      some ⟨EKind.linearRamp, 0, startTime + duration⟩ ∧
    (applyOptimizedEnvelope startTime duration attackMs decayMs 7 volume).getLast? =
      some ⟨EKind.linearRamp, 0, startTime + duration⟩ := by
  refine ⟨fun shape => rfl, ?_, ?_, ?_, ?_, ?_, ?_, ?_, ?_⟩
  · simp only [applyOptimizedEnvelope]
    norm_num
    rw [getLast?_cons_ne_nil _ (by simp), List.getLast?_append_of_ne_nil _ (by simp)]
    rfl
  · simp only [applyOptimizedEnvelope]
    norm_num
    rw [getLast?_cons_ne_nil _ (by simp), List.getLast?_append_of_ne_nil _ (by simp)]
    rfl
  · simp only [applyOptimizedEnvelope]
    norm_num
    rw [getLast?_cons_ne_nil _ (applyLogarithmicEnvelope_ne_nil _ _ _ _ _)]
    exact applyLogarithmicEnvelope_getLast _ _ _ _ _
  · simp only [applyOptimizedEnvelope]
    norm_num
    rw [getLast?_cons_ne_nil _ (applySigmoidEnvelope_ne_nil _ _ _ _ _)]
    exact applySigmoidEnvelope_getLast _ _ _ _ _
  · simp only [applyOptimizedEnvelope]
    norm_num
    rw [getLast?_cons_ne_nil _ (applyCosineEnvelope_ne_nil _ _ _ _ _)]
    exact applyCosineEnvelope_getLast _ _ _ _ _
  · simp only [applyOptimizedEnvelope]
    norm_num
    rw [getLast?_cons_ne_nil _ (applyGaussianEnvelope_ne_nil _ _ _)]
    exact applyGaussianEnvelope_getLast _ _ _ (ne_of_gt hd)
  · simp only [applyOptimizedEnvelope]
    norm_num
    rw [getLast?_cons_ne_nil _ (applyHanningEnvelope_ne_nil _ _ _)]
    exact applyHanningEnvelope_getLast _ _ _
  · simp only [applyOptimizedEnvelope]
    norm_num
    rw [getLast?_cons_ne_nil _ (applyTriangularEnvelope_ne_nil _ _ _ _ _)]
    exact applyTriangularEnvelope_getLast _ _ _ _ _

theorem C4_envelope_endpoints_witness :
    (0 : ℝ) < 1 ∧ (applyOptimizedEnvelope 0 1 100 200 5 (7/10)).getLast? =
      some ⟨EKind.linearRamp, peakGainOf (7/10) * Real.exp (-(9 / 2 : ℝ)), 0 + 1⟩ :=
  ⟨by norm_num, (C4_envelope_endpoints 0 1 100 200 (7/10) (by norm_num)).2.2.2.2.2.2.1⟩

/-- C4 counterexample: for shape 1 (Exponential) with duration 1 s,
attack 100 ms, decay 200 ms and volume 0.7 (so `peakGain = 0.2·0.7 = 0.14`),
the final event value is the absolute constant 0.001, which exceeds
`0.001·peakGain = 0.00014`. -/
theorem C4_counterexample :
    ¬ (∀ e, (applyOptimizedEnvelope 0 1 100 200 1 (7/10)).getLast? = some e →
        e.value ≤ 0.001 * peakGainOf (7/10)) := by
  intro h
  have h1 : (applyOptimizedEnvelope 0 1 100 200 1 (7/10)).getLast? =
      some ⟨EKind.expRamp, 0.001, 0 + 1⟩ := by
    simp only [applyOptimizedEnvelope]
    norm_num
    rw [getLast?_cons_ne_nil _ (by simp), List.getLast?_append_of_ne_nil _ (by simp)]
    rfl
  have h2 := h _ h1
  simp only [peakGainOf, BASE_GAIN] at h2
  norm_num at h2

/-- C5 (amended): envelope shape 0 (Linear) with duration 1 s, attack
100 ms, decay 200 ms and peak gain 0.5 (volume 2.5) produces exactly the
points (0, 0), (0.1, 0.5), (0.8, 0.5) — the end, not the start, of the
sustain plateau — and (1.0, 0). -/
theorem C5_linear_points :
    applyOptimizedEnvelope 0 1 100 200 0 (5/2) =
      [⟨EKind.setValue, 0, 0⟩, ⟨EKind.linearRamp, 1/2, 1/10⟩,
       ⟨EKind.setValue, 1/2, 4/5⟩, ⟨EKind.linearRamp, 0, 1⟩] := by
  simp only [applyOptimizedEnvelope, sustainHold, peakGainOf, BASE_GAIN]
  norm_num

/-- C5 counterexample: the generated point list contains no control point
`(0.7, 0.5)` — the sustain-hold point sits at time 0.8
(`startTime + attackTime + sustainTime`), not at 0.7. -/
theorem C5_counterexample :
    ¬ (∃ e ∈ applyOptimizedEnvelope 0 1 100 200 0 (5/2),
        e.time = 7/10 ∧ e.value = 1/2) := by
  rintro ⟨e, hm, ht, hv⟩
  simp only [applyOptimizedEnvelope, sustainHold, peakGainOf, BASE_GAIN] at hm
  norm_num at hm
  rcases hm with he | he | he | he <;> rw [he] at ht <;> norm_num at ht

end Env

namespace Trig

/-- C6 (amended): with `spread = 0` the playback rate, pan and start time
handed to `createGrain` are exactly the unjittered base values, but the
position still receives the unconditional `(Math.random() − 0.5) · 0.05`
jitter (±25 ms) before clamping, so the random source does influence the
submitted position even at spread 0. -/
theorem C6_spread_zero (spread grainSize startOffset playbackRate panControl
    bufferDuration lfoVal now r1 r2 r3 r4 r5 : ℚ) (hs : spread = 0) :
    (triggerGrain spread grainSize startOffset playbackRate panControl
        bufferDuration lfoVal now r1 r2 r3 r4 r5).playbackRate = playbackRate ∧
    (triggerGrain spread grainSize startOffset playbackRate panControl
        bufferDuration lfoVal now r1 r2 r3 r4 r5).panControl = panControl ∧
    (triggerGrain spread grainSize startOffset playbackRate panControl
        bufferDuration lfoVal now r1 r2 r3 r4 r5).grainStartTime = now ∧
    (triggerGrain spread grainSize startOffset playbackRate panControl
        bufferDuration lfoVal now r1 r2 r3 r4 r5).position =
      max 0 (min (bufferDuration - grainSize / 1000)
        ((startOffset / 100) * bufferDuration +
          lfoVal * (bufferDuration - (startOffset / 100) * bufferDuration -
            grainSize / 1000) + (r2 - 1/2) * (5/100))) := by
  subst hs
  norm_num [triggerGrain]

theorem C6_spread_zero_witness :
    (triggerGrain 0 100 0 1 0 1 0 0 0 1 0 0 0).playbackRate = 1 ∧
    (triggerGrain 0 100 0 1 0 1 0 0 0 1 0 0 0).panControl = 0 ∧
    (triggerGrain 0 100 0 1 0 1 0 0 0 1 0 0 0).grainStartTime = 0 ∧
    (triggerGrain 0 100 0 1 0 1 0 0 0 1 0 0 0).position =
      max 0 (min ((1 : ℚ) - 100 / 1000)
        ((0 / 100) * 1 + 0 * (1 - (0 / 100) * 1 - 100 / 1000) +
          ((1 : ℚ) - 1/2) * (5/100))) :=
  C6_spread_zero 0 100 0 1 0 1 0 0 0 1 0 0 0 rfl

/-- C6 counterexample: two runs with `spread = 0` that differ only in the
fixed-jitter random draw submit different positions (0.025 s vs 0 s), so
the random source leaks into the output at spread 0. -/
theorem C6_counterexample :
    ¬ ((triggerGrain 0 100 0 1 0 1 0 0 0 1 0 0 0).position =
       (triggerGrain 0 100 0 1 0 1 0 0 0 (1/2) 0 0 0).position) := by
  norm_num [triggerGrain, min_def, max_def]

end Trig

namespace Pool

/-- C7: a node triple released through `returnNodesToPool` re-enters the
pool reset to gain 1, filter frequency `DEFAULT_FILTER_FREQUENCY`, pan 0
and no scheduled automation, and an acquisition immediately after the
release observes exactly that default-state triple. -/
theorem C7_pool_reset (p : NodePool) (g : GainNode) (f : FilterNode) (pn : PannerNode)
    (hg : ∀ e ∈ g.gainEvents, 0 ≤ e.1) (hf : ∀ e ∈ f.freqEvents, 0 ≤ e.1)
    (hp : ∀ e ∈ pn.panEvents, 0 ≤ e.1) :
    (getPooledNodes (returnNodesToPool p g f pn)).1 =
      (⟨1, []⟩, ⟨GVM.DEFAULT_FILTER_FREQUENCY, []⟩, ⟨0, []⟩) := by
  have hg2 : cancelScheduledValues 0 g.gainEvents = [] := by
    simp only [cancelScheduledValues, List.filter_eq_nil]
    intro e he
    simpa using hg e he
  have hf2 : cancelScheduledValues 0 f.freqEvents = [] := by
    simp only [cancelScheduledValues, List.filter_eq_nil]
    intro e he
    simpa using hf e he
  have hp2 : cancelScheduledValues 0 pn.panEvents = [] := by
    simp only [cancelScheduledValues, List.filter_eq_nil]
    intro e he
    simpa using hp e he
  simp [getPooledNodes, returnNodesToPool, hg2, hf2, hp2]

theorem C7_pool_reset_witness :
    (getPooledNodes (returnNodesToPool ⟨[], [], []⟩ ⟨5, [(1, 3)]⟩ ⟨1000, [(2, 4)]⟩
        ⟨1, [(3, 5)]⟩)).1 =
      (⟨1, []⟩, ⟨GVM.DEFAULT_FILTER_FREQUENCY, []⟩, ⟨0, []⟩) :=
  C7_pool_reset ⟨[], [], []⟩ ⟨5, [(1, 3)]⟩ ⟨1000, [(2, 4)]⟩ ⟨1, [(3, 5)]⟩
    (by norm_num) (by norm_num) (by norm_num)

end Pool

namespace ExcM

theorem jsTry_ok {α : Type} (body : Except JsErr α) (fb : α) :
    ∃ a, jsTry body fb = .ok a := by
  cases body with
  | ok a => exact ⟨a, rfl⟩
  | error e => exact ⟨fb, rfl⟩

theorem jsTry_unit (body : Except JsErr Unit) : jsTry body () = .ok () := by
  cases body with
  | ok a => cases a; rfl
  | error e => rfl

/-- C8: `createGrain` always returns normally with a grain handle or
`null`; `cleanupGrain` and `performCleanup` always return normally —
whatever combination of internal steps throws, no exception escapes into
the scheduler loop; in particular when source construction throws,
`createGrain` returns `null`. -/
theorem C8_no_exception_escapes :
    (∀ cfg : FailCfg, ∃ r : Option Unit, createGrainE cfg = Except.ok r) ∧
    (∀ cfg : FailCfg, cleanupGrainE cfg = Except.ok ()) ∧
    (∀ cfg : FailCfg, performCleanupE cfg = Except.ok ()) ∧
    (∀ cfg : FailCfg, cfg.sourceFail = true → createGrainE cfg = Except.ok none) := by
  refine ⟨fun cfg => jsTry_ok _ _, fun cfg => jsTry_unit _, fun cfg => jsTry_unit _, ?_⟩
  intro cfg hsf
  have h1 : performCleanupE cfg = Except.ok () := jsTry_unit _
  have h2 : forceCleanupOldestE cfg = Except.ok () := jsTry_unit _
  have h3 : createOptimizedGrainE cfg = Except.ok none := by
    rcases cfg with ⟨sf, pf, ff, paf, ef, cf, rf, stf, ref, qf⟩
    simp only at hsf
    subst hsf
    rfl
  unfold createGrainE
  rw [h1, h2, h3]
  rfl

theorem C8_no_exception_escapes_witness :
    createGrainE ⟨true, false, false, false, false, false, false, false, false, false⟩ =
      Except.ok none :=
  C8_no_exception_escapes.2.2.2
    ⟨true, false, false, false, false, false, false, false, false, false⟩ rfl

end ExcM
